import Mathlib

/-!
# Verification of the datasheet extraction / merge / batch pipeline

Shallow embedding of the core modules of the repository
(`ai_integration.py`, `batch_processor.py`, with the data model from
`pdf_extractor.py` and the dedup collaborator from `database.py`),
together with theorems settling the specification claims.

Modelling conventions:
* Python `float` confidences and thresholds are modelled as `ℚ`.
* Python `dict` (insertion-ordered, update-in-place keeps position) is
  modelled as an association list `List (String × α)` with `dictInsert`
  and `dictGet`.
* Python exceptions are modelled with `Except String`.
-/

namespace DatasheetAI

/-! ## Data model (`pdf_extractor.py` lines 28–51)

`Parameter` in `pdf_extractor.py` (lines 28–35) declares
`name, value, unit, category, confidence`.  The rest of the repository
requires an `extraction_method` field as well: `ai_integration.py`
line 316 constructs `Parameter(..., extraction_method="ai")`,
`validate_extraction` reads `param.extraction_method`, and
`tests/test_pdf_extractor.py` line 41 asserts its default is
`"pattern"`.  We therefore include the field, defaulting to
`"pattern"`.  `value` is `Any` in Python; the code only ever stores
strings or numbers in it, modelled as `String`. -/

structure Parameter where
  name : String
  value : String
  unit : String := ""
  category : String := "general"
  confidence : ℚ := 1
  extraction_method : String := "pattern"
  deriving Repr, DecidableEq

structure PartVariant where
  part_number : String
  parameters : List Parameter
  description : String := ""
  deriving Repr, DecidableEq

/-- Identifying counts recorded for one side of a merge
(`ai_integration.py` lines 420–431). -/
structure SideMeta where
  supplier : String
  product_family : String
  variants_count : ℕ
  parameters_count : ℕ
  deriving Repr, DecidableEq

/-- The `metadata` dict of a `DatasheetExtraction`: `None`, the
AI-conversion tag (`ai_integration.py` line 333), or the audit record
written by the merge (lines 419–433). -/
inductive MetaInfo where
  | aiTag : MetaInfo
  | mergedMeta (patternSide aiSide : SideMeta) : MetaInfo
  deriving Repr, DecidableEq

structure DatasheetExtraction where
  supplier : String
  product_family : String
  variants : List PartVariant
  metadata : Option MetaInfo := none
  deriving Repr, DecidableEq

/-! ## Python dict as an insertion-ordered association list -/

/-- Python `d[k] = v`: replace in place if the key is present, else append. -/
def dictInsert {α : Type} : List (String × α) → String → α → List (String × α)
  | [], k, v => [(k, v)]
  | (k', v') :: rest, k, v =>
      if k' = k then (k, v) :: rest else (k', v') :: dictInsert rest k v

/-- Python `d.get(k)` and `k in d`. -/
def dictGet {α : Type} : List (String × α) → String → Option α
  | [], _ => none
  | (k', v) :: rest, k => if k' = k then some v else dictGet rest k

/-- Python `list(d.values())`. -/
def dictValues {α : Type} (d : List (String × α)) : List α :=
  d.map Prod.snd

/-- Python `str.startswith`, modelled as a character-prefix test.
(Core's `String.startsWith` is defined by well-founded recursion and
does not evaluate inside proofs, so we spell the same function out on
the character lists.) -/
def strStartsWith (s pre : String) : Bool :=
  s.data.take pre.data.length = pre.data

/-! ## Constants (`ai_integration.py` lines 35–37) -/

def MIN_PATTERN_CONFIDENCE : ℚ := 6/10
def MIN_PARAMETERS_THRESHOLD : ℕ := 3
def CONFIDENCE_BOOST : ℚ := 1/10

/-! ## Parameter counting and average confidence
(`extract_from_file`, `ai_integration.py` lines 142–150) -/

/-- The count `sum(len(variant.parameters) for variant in result.variants)`. -/
def paramsCount (r : DatasheetExtraction) : ℕ :=
  (r.variants.map (fun v => v.parameters.length)).sum

/-- The sum `sum(param.confidence for variant ... for param ...)`. -/
def confidenceSum (r : DatasheetExtraction) : ℚ :=
  (r.variants.map (fun v => (v.parameters.map Parameter.confidence).sum)).sum

/-- The average `stats.pattern_confidence_avg`: the running average, left at its
initial `0.0` when no parameter was extracted (lines 148–150). -/
def avgConfidence (r : DatasheetExtraction) : ℚ :=
  if 0 < paramsCount r then confidenceSum r / (paramsCount r : ℚ) else 0

/-! ## The fallback decision (`_needs_ai_extraction`,
`ai_integration.py` lines 253–290) -/

/-- The decision `_needs_ai_extraction`.  `hasAIExtractor` models
`self.ai_extractor is not None`. -/
def needsAIExtraction (hasAIExtractor : Bool) (pattern_result : DatasheetExtraction)
    (params_count : ℕ) (avg_confidence : ℚ) : Bool :=
  if !hasAIExtractor then false
  else if params_count < MIN_PARAMETERS_THRESHOLD then true
  else if avg_confidence < MIN_PATTERN_CONFIDENCE then true
  else if pattern_result.supplier = "Unknown" ∨
          pattern_result.product_family = "General Electronics" then true
  else if pattern_result.variants.isEmpty ∨
          pattern_result.variants.all (fun v => strStartsWith v.part_number "Unknown") then true
  else false

/-- The combined decision `needs_ai = force_ai or self._needs_ai_extraction(...)`
(`extract_from_file`, line 153). -/
def needsAI (hasAIExtractor : Bool) (pattern_result : DatasheetExtraction)
    (params_count : ℕ) (avg_confidence : ℚ) (force_ai : Bool) : Bool :=
  force_ai || needsAIExtraction hasAIExtractor pattern_result params_count avg_confidence

/-- The guard `if needs_ai and self.ai_extractor:` — whether the AI extractor is
actually invoked (`extract_from_file`, line 160). -/
def aiInvoked (hasAIExtractor : Bool) (pattern_result : DatasheetExtraction)
    (params_count : ℕ) (avg_confidence : ℚ) (force_ai : Bool) : Bool :=
  needsAI hasAIExtractor pattern_result params_count avg_confidence force_ai && hasAIExtractor

/-! ## Merging pattern and AI results
(`_merge_extraction_results`, `ai_integration.py` lines 338–436)

The Python code builds `all_variants`, a dict keyed by part number whose
values are dicts `{"part_number", "description", "parameters"}`, the
parameters themselves a dict keyed by parameter name. -/

/-- One entry of `all_variants` (lines 365–369). -/
structure VariantEntry where
  part_number : String
  description : String
  parameters : List (String × Parameter)
  deriving Repr, DecidableEq

/-- The dict comprehension `{param.name: param for param in parameters}` (line 368 / 401). -/
def paramsDict (parameters : List Parameter) : List (String × Parameter) :=
  parameters.foldl (fun d p => dictInsert d p.name p) []

/-- The fresh `all_variants` entry built for a variant
(lines 365–369 and 398–402). -/
def mkVariantEntry (v : PartVariant) : VariantEntry :=
  { part_number := v.part_number, description := v.description,
    parameters := paramsDict v.parameters }

/-- Merging one AI parameter into an existing parameters dict
(lines 382–395): if the name is present, the side with strictly higher
confidence wins and the kept value's confidence is boosted by
`CONFIDENCE_BOOST`, clamped to `1.0`; otherwise the AI parameter is
added. -/
def mergeParamsStep (d : List (String × Parameter)) (param : Parameter) :
    List (String × Parameter) :=
  match dictGet d param.name with
  | some existing_param =>
      if existing_param.confidence < param.confidence then
        dictInsert d param.name
          { param with confidence := min 1 (param.confidence + CONFIDENCE_BOOST) }
      else
        dictInsert d param.name
          { existing_param with
              confidence := min 1 (existing_param.confidence + CONFIDENCE_BOOST) }
  | none => dictInsert d param.name param

/-- Merging one AI variant into `all_variants` (lines 372–402): if the
part number is known, the description is filled when empty (lines
377–379) and the AI parameters are folded into the entry's parameter
dict (lines 381–395); otherwise a fresh entry is added (lines 396–402).
(The Python mutates the entry dict in place; re-inserting the updated
entry at the same key is the functional rendering of that update.) -/
def mergeVariantStep (all_variants : List (String × VariantEntry)) (v : PartVariant) :
    List (String × VariantEntry) :=
  match dictGet all_variants v.part_number with
  | some existing =>
      dictInsert all_variants v.part_number
        { part_number := existing.part_number,
          description := if existing.description = "" ∧ v.description ≠ "" then
                           v.description
                         else existing.description,
          parameters := v.parameters.foldl mergeParamsStep existing.parameters }
  | none => dictInsert all_variants v.part_number (mkVariantEntry v)

/-- The fully merged `all_variants` dict: pattern variants first
(lines 364–369), then AI variants (lines 372–402). -/
def mergedVariantsDict (pattern_result ai_result : DatasheetExtraction) :
    List (String × VariantEntry) :=
  ai_result.variants.foldl mergeVariantStep
    (pattern_result.variants.foldl
      (fun d v => dictInsert d v.part_number (mkVariantEntry v)) [])

/-- Supplier arbitration (lines 352–354). -/
def mergedSupplier (pattern_result ai_result : DatasheetExtraction) : String :=
  if pattern_result.supplier = "Unknown" ∧ ai_result.supplier ≠ "Unknown" then
    ai_result.supplier
  else pattern_result.supplier

/-- Product-family arbitration (lines 356–358). -/
def mergedProductFamily (pattern_result ai_result : DatasheetExtraction) : String :=
  if pattern_result.product_family = "General Electronics" ∧
      ai_result.product_family ≠ "Unknown" then
    ai_result.product_family
  else pattern_result.product_family

/-- The audit metadata of a merge input (lines 420–431). -/
def sideMeta (r : DatasheetExtraction) : SideMeta :=
  { supplier := r.supplier, product_family := r.product_family,
    variants_count := r.variants.length, parameters_count := paramsCount r }

/-- The merge `_merge_extraction_results` (lines 338–436): the returned
`DatasheetExtraction`. -/
def mergeExtractionResults (pattern_result ai_result : DatasheetExtraction) :
    DatasheetExtraction :=
  { supplier := mergedSupplier pattern_result ai_result,
    product_family := mergedProductFamily pattern_result ai_result,
    variants :=
      (mergedVariantsDict pattern_result ai_result).map fun e =>
        { part_number := e.2.part_number,
          parameters := dictValues e.2.parameters,
          description := e.2.description },
    metadata := some (.mergedMeta (sideMeta pattern_result) (sideMeta ai_result)) }

/-! ## Side effects of the merge on its inputs

`_merge_extraction_results` mutates `Parameter` objects of its inputs in
place: line 388 writes `param.confidence` on an AI-side object before
storing it in the dict, and line 392 writes `existing_param.confidence`
on the object currently held in the dict — which, for pattern-side
parameters, is the very object inside `pattern_result.variants`.  To
observe those effects we re-run the same merge loop over parameters
tagged with their identity (side and position in the input lists) and
collect every in-place confidence write in a log; replaying the log onto
the inputs yields the state of the input objects after the call. -/

/-- Identity of a `Parameter` object of the merge inputs: which side it
came from and its (variant, parameter) position there. -/
inductive ParamOrigin where
  | fromPattern (vi pj : ℕ) : ParamOrigin
  | fromAI (vi pj : ℕ) : ParamOrigin
  deriving Repr, DecidableEq

/-- A log of in-place confidence writes, in program order. -/
def ConfLog := List (ParamOrigin × ℚ)

/-- Rerun of `mergeParamsStep` with object identities and the write log
(`ai_integration.py` lines 382–395; the two branches log the writes of
lines 388 and 392 respectively). -/
def mergeParamsStepT (st : List (String × (ParamOrigin × Parameter)) × List (ParamOrigin × ℚ))
    (op : ParamOrigin × Parameter) :
    List (String × (ParamOrigin × Parameter)) × List (ParamOrigin × ℚ) :=
  match dictGet st.1 op.2.name with
  | some ep =>
      if ep.2.confidence < op.2.confidence then
        (dictInsert st.1 op.2.name
          (op.1, { op.2 with confidence := min 1 (op.2.confidence + CONFIDENCE_BOOST) }),
         st.2 ++ [(op.1, min 1 (op.2.confidence + CONFIDENCE_BOOST))])
      else
        (dictInsert st.1 op.2.name
          (ep.1, { ep.2 with confidence := min 1 (ep.2.confidence + CONFIDENCE_BOOST) }),
         st.2 ++ [(ep.1, min 1 (ep.2.confidence + CONFIDENCE_BOOST))])
  | none => (dictInsert st.1 op.2.name op, st.2)

/-- The parameters dict of a variant, with tagged objects. -/
def paramsDictT (ops : List (ParamOrigin × Parameter)) :
    List (String × (ParamOrigin × Parameter)) :=
  ops.foldl (fun d op => dictInsert d op.2.name op) []

/-- An `all_variants` entry with tagged parameter objects. -/
structure VariantEntryT where
  part_number : String
  description : String
  parameters : List (String × (ParamOrigin × Parameter))

/-- The `all_variants` entry for the pattern variant at index `vi`. -/
def tagPatternEntry (vi : ℕ) (v : PartVariant) : VariantEntryT :=
  { part_number := v.part_number, description := v.description,
    parameters := paramsDictT (v.parameters.enum.map fun y => (.fromPattern vi y.1, y.2)) }

/-- The `all_variants` entry for the AI variant at index `vi`. -/
def tagAIEntry (vi : ℕ) (v : PartVariant) : VariantEntryT :=
  { part_number := v.part_number, description := v.description,
    parameters := paramsDictT (v.parameters.enum.map fun y => (.fromAI vi y.1, y.2)) }

/-- Rerun of `mergeVariantStep` with object identities and the write log. -/
def mergeVariantStepT (st : List (String × VariantEntryT) × List (ParamOrigin × ℚ))
    (x : ℕ × PartVariant) : List (String × VariantEntryT) × List (ParamOrigin × ℚ) :=
  match dictGet st.1 x.2.part_number with
  | some e =>
      let res := (x.2.parameters.enum.map fun y => (ParamOrigin.fromAI x.1 y.1, y.2)).foldl
        mergeParamsStepT (e.parameters, st.2)
      (dictInsert st.1 x.2.part_number
        { part_number := e.part_number,
          description := if e.description = "" ∧ x.2.description ≠ "" then x.2.description
                         else e.description,
          parameters := res.1 },
       res.2)
  | none => (dictInsert st.1 x.2.part_number (tagAIEntry x.1 x.2), st.2)

/-- All in-place confidence writes performed by
`_merge_extraction_results(pattern_result, ai_result)`, in order. -/
def mergeLog (pattern_result ai_result : DatasheetExtraction) : List (ParamOrigin × ℚ) :=
  (ai_result.variants.enum.foldl mergeVariantStepT
    (pattern_result.variants.enum.foldl
      (fun d x => dictInsert d x.2.part_number (tagPatternEntry x.1 x.2)) [],
     [])).2

/-- The last confidence written to the object `o`, if any. -/
def lastWrite (log : List (ParamOrigin × ℚ)) (o : ParamOrigin) : Option ℚ :=
  (log.reverse.find? fun e => decide (e.1 = o)).map Prod.snd

/-- The state of a parameter object after the merge's writes. -/
def applyLogParam (log : List (ParamOrigin × ℚ)) (o : ParamOrigin) (q : Parameter) :
    Parameter :=
  match lastWrite log o with
  | some c => { q with confidence := c }
  | none => q

/-- The state of `pattern_result` after
`_merge_extraction_results(pattern_result, ai_result)` returns. -/
def patternAfterMerge (pattern_result ai_result : DatasheetExtraction) :
    DatasheetExtraction :=
  { pattern_result with
    variants := pattern_result.variants.enum.map fun x =>
      { x.2 with
        parameters := x.2.parameters.enum.map fun y =>
          applyLogParam (mergeLog pattern_result ai_result) (.fromPattern x.1 y.1) y.2 } }

/-- The state of `ai_result` after
`_merge_extraction_results(pattern_result, ai_result)` returns. -/
def aiAfterMerge (pattern_result ai_result : DatasheetExtraction) :
    DatasheetExtraction :=
  { ai_result with
    variants := ai_result.variants.enum.map fun x =>
      { x.2 with
        parameters := x.2.parameters.enum.map fun y =>
          applyLogParam (mergeLog pattern_result ai_result) (.fromAI x.1 y.1) y.2 } }

/-- A parameter with its confidence blanked, for stating that a
transformation touches nothing but confidence fields. -/
def eraseParamConf (q : Parameter) : Parameter :=
  { q with confidence := 0 }

/-- A variant with all confidences blanked. -/
def eraseVariantConf (v : PartVariant) : PartVariant :=
  { v with parameters := v.parameters.map eraseParamConf }

/-- An extraction result with all confidences blanked. -/
def eraseConf (r : DatasheetExtraction) : DatasheetExtraction :=
  { r with variants := r.variants.map eraseVariantConf }

/-! ## Well-formedness of extraction results

The specification's data model declares variants uniquely keyed by
`part_number` and parameters uniquely keyed by `name` within a variant. -/

/-- Variants keyed uniquely by part number, parameters keyed uniquely by
name within each variant. -/
def uniquelyKeyed (r : DatasheetExtraction) : Prop :=
  (r.variants.map PartVariant.part_number).Nodup ∧
  ∀ v ∈ r.variants, (v.parameters.map Parameter.name).Nodup

/-- All confidences of an extraction result lie in `[0, 1]`. -/
def confBounded (r : DatasheetExtraction) : Prop :=
  ∀ v ∈ r.variants, ∀ p ∈ v.parameters, 0 ≤ p.confidence ∧ p.confidence ≤ 1

/-! ## Batch processing (`batch_processor.py`)

Modelling conventions for the batch orchestrator:
* Wall-clock time is a logical clock: every `time.time()` call returns
  the current tick and advances it.
* File contents are byte lists; `os.path.getsize` is the length, and the
  SHA-256 fingerprint of a file is modelled by its content bytes (an
  injective fingerprint, which is exactly how the code uses the hash).
* The thread pool / event loop is serialised: `completion_order`, an
  arbitrary permutation of the submitted paths, is the order in which
  `concurrent.futures.as_completed` (resp. the async workers) deliver
  results, and each file's `_process_file` runs against the database
  state left by the previously completed files.  `max_workers` only
  bounds concurrency and does not influence aggregation.
* `os.path.basename` is left abstract: `file_name` is the path itself. -/

/-- Enum `ProcessingStatus` (`batch_processor.py` lines 49–55). -/
inductive ProcessingStatus where
  | pending : ProcessingStatus
  | processing : ProcessingStatus
  | completed : ProcessingStatus
  | failed : ProcessingStatus
  | skipped : ProcessingStatus
  deriving Repr, DecidableEq

/-- The dedup/storage collaborator (`database.py`): the `datasheets`
table reduced to the columns the batch processor reads — `file_hash` and
the AUTOINCREMENT `id` (starting at 1). -/
structure DedupDB where
  records : List (List ℕ × ℕ)
  next_id : ℕ
  deriving Repr, DecidableEq

/-- The query `SELECT id FROM datasheets WHERE file_hash = ?`
(`batch_processor.py` lines 608–616). -/
def DedupDB.findByHash (db : DedupDB) (h : List ℕ) : Option ℕ :=
  (db.records.find? fun r => decide (r.1 = h)).map Prod.snd

/-- The save `save_datasheet` (`database.py` lines 168–231): returns the existing
id when a record with the same hash exists, otherwise inserts a new row
and returns its id. -/
def DedupDB.saveDatasheet (db : DedupDB) (h : List ℕ) : ℕ × DedupDB :=
  match db.findByHash h with
  | some id => (id, db)
  | none => (db.next_id,
      { records := db.records ++ [(h, db.next_id)], next_id := db.next_id + 1 })

/-- The environment a batch run executes against: the file system and
the outcome of the extraction step (`_process_file` lines 427–463,
whichever of the integrated or pattern extractor is configured; an
`Except.error` models a raised exception, including the
`ValueError("No extractor available")` case). -/
structure BatchEnv where
  fs : String → Option (List ℕ)
  extract : String → Except String DatasheetExtraction

/-- A task's recorded `result` dict: either `{"existing_id": id}` (dedup
hit, line 425) or the extraction's `to_dict()` result, carrying
`"datasheet_id"` when a database is configured (line 476). -/
inductive TaskResult where
  | existingId (id : ℕ) : TaskResult
  | extraction (r : DatasheetExtraction) (datasheet_id : Option ℕ) : TaskResult
  deriving Repr, DecidableEq

/-- A task's recorded `extraction_stats` dict: `{"skipped": True}` for a
dedup hit (line 425), or the stats dict of a real extraction. -/
inductive TaskStats where
  | skippedTrue : TaskStats
  | extracted : TaskStats
  deriving Repr, DecidableEq

/-- The count `sum(len(variant.get("parameters", [])) for variant in
task_result["variants"])`, guarded by `"variants" in task_result`
(lines 273–278): a dedup-hit result `{"existing_id": ...}` has no
`"variants"` key and contributes nothing. -/
def resultParamCount : TaskResult → ℕ
  | .existingId _ => 0
  | .extraction r _ => paramsCount r

/-- The task record `FileTask` (`batch_processor.py` lines 57–94). -/
structure FileTask where
  file_path : String
  file_name : String
  file_size : ℕ
  status : ProcessingStatus := .pending
  error_message : Option String := none
  start_time : Option ℕ := none
  end_time : Option ℕ := none
  result : Option TaskResult := none
  extraction_stats : Option TaskStats := none
  deriving Repr, DecidableEq

/-- The property `FileTask.duration` (lines 71–78): `0` when `start_time` was never
set.  (The `end_time is None` branch reads the wall clock in the source;
both batch runners only read `duration` after setting `end_time`, so the
model returns `0` there.) -/
def FileTask.duration (t : FileTask) : ℕ :=
  match t.start_time with
  | none => 0
  | some s =>
      match t.end_time with
      | none => 0
      | some e => e - s

/-- The aggregate `BatchResult` (`batch_processor.py` lines 96–133). -/
structure BatchResult where
  total_files : ℕ := 0
  completed_files : ℕ := 0
  failed_files : ℕ := 0
  skipped_files : ℕ := 0
  total_parameters : ℕ := 0
  total_duration : ℕ := 0
  start_time : ℕ
  end_time : Option ℕ := none
  tasks : List (String × FileTask) := []
  deriving Repr, DecidableEq

/-- The property `success_rate` (lines 109–114): a percentage. -/
def BatchResult.success_rate (b : BatchResult) : ℚ :=
  if b.total_files = 0 then 0
  else ((b.completed_files : ℚ) / (b.total_files : ℚ)) * 100

/-- The property `progress` (lines 128–133): a percentage. -/
def BatchResult.progress (b : BatchResult) : ℚ :=
  if b.total_files = 0 then 0
  else (((b.completed_files + b.failed_files + b.skipped_files : ℕ) : ℚ) /
    (b.total_files : ℚ)) * 100

/-- The property `is_complete` (lines 116–119). -/
def BatchResult.is_complete (b : BatchResult) : Bool :=
  b.total_files ≤ b.completed_files + b.failed_files + b.skipped_files

/-- The pipeline `_process_file` / `_process_file_async` (lines 401–484 / 486–572;
the two bodies are identical up to awaiting): hash the file, consult the
dedup collaborator, extract, save.  Returns the (result, stats) pair or
the raised exception, together with the database state after the call. -/
def processFile (env : BatchEnv) (db : Option DedupDB) (file_path : String) :
    Except String (TaskResult × TaskStats) × Option DedupDB :=
  match env.fs file_path with
  | none => (.error ("No such file or directory: " ++ file_path), db)
  | some content =>
      match db with
      | some theDb =>
          match theDb.findByHash content with
          | some existing => (.ok (.existingId existing, .skippedTrue), some theDb)
          | none =>
              match env.extract file_path with
              | .error e => (.error e, some theDb)
              | .ok r =>
                  let saved := theDb.saveDatasheet content
                  (.ok (.extraction r (some saved.1), .extracted), some saved.2)
      | none =>
          match env.extract file_path with
          | .error e => (.error e, none)
          | .ok r => (.ok (.extraction r none, .extracted), none)

/-- Task creation (`process_batch_sync` lines 230–243,
`process_batch_async` lines 321–334): one pending `FileTask` per path,
keyed by path; `os.path.getsize` raises — aborting the whole call —
when a file is missing. -/
def createTasksFrom (env : BatchEnv) (acc : List (String × FileTask)) :
    List String → Except String (List (String × FileTask))
  | [] => .ok acc
  | fp :: rest =>
      match env.fs fp with
      | none => .error ("No such file or directory: " ++ fp)
      | some content =>
          createTasksFrom env
            (dictInsert acc fp { file_path := fp, file_name := fp, file_size := content.length })
            rest

/-- The initial `BatchResult` of a run (line 228 / 319). -/
def initBatch (file_paths : List String) (clock : ℕ)
    (tasks : List (String × FileTask)) : BatchResult :=
  { total_files := file_paths.length, start_time := clock, tasks := tasks }

/-- One iteration of the `as_completed` loop of `process_batch_sync`
(lines 254–299): run state is (batch result, database, clock). -/
def completionStep (env : BatchEnv) (st : BatchResult × Option DedupDB × ℕ)
    (file_path : String) : BatchResult × Option DedupDB × ℕ :=
  match st with
  | (result, db, clock) =>
    match dictGet result.tasks file_path with
    | none => (result, db, clock)
    | some task =>
        match processFile env db file_path with
        | (.ok res, db') =>
            let task' := { task with
              status := .completed, end_time := some clock,
              result := some res.1, extraction_stats := some res.2 }
            ({ result with
                tasks := dictInsert result.tasks file_path task',
                completed_files := result.completed_files + 1,
                total_duration := result.total_duration + task'.duration,
                total_parameters := result.total_parameters + resultParamCount res.1 },
             db', clock + 1)
        | (.error msg, db') =>
            let task' := { task with
              status := .failed, end_time := some clock, error_message := some msg }
            ({ result with
                tasks := dictInsert result.tasks file_path task',
                failed_files := result.failed_files + 1,
                total_duration := result.total_duration + task'.duration },
             db', clock + 1)

/-- The state after the `as_completed` loop has consumed the futures in
`completion_order`. -/
def syncRunState (env : BatchEnv) (db : Option DedupDB)
    (tasks : List (String × FileTask)) (file_paths completion_order : List String)
    (clock : ℕ) : BatchResult × Option DedupDB × ℕ :=
  completion_order.foldl (completionStep env) (initBatch file_paths clock tasks, db, clock + 1)

/-- The runner `process_batch_sync` (lines 215–304).  `max_workers` bounds the
worker pool; scheduling is captured by `completion_order` (see the
section header) and does not change aggregation. -/
def processBatchSync (env : BatchEnv) (db : Option DedupDB) (file_paths : List String)
    (max_workers : ℕ) (completion_order : List String) (clock : ℕ) :
    Except String BatchResult :=
  match createTasksFrom env [] file_paths with
  | .error e => .error e
  | .ok tasks =>
      match syncRunState env db tasks file_paths completion_order clock with
      | (result, _, clock') => .ok { result with end_time := some clock' }

/-- One worker body of `process_batch_async` (lines 340–390): unlike the
synchronous loop it marks the task `PROCESSING`, stamps `start_time`,
and therefore accumulates a positive `duration`. -/
def completionStepAsync (env : BatchEnv) (st : BatchResult × Option DedupDB × ℕ)
    (file_path : String) : BatchResult × Option DedupDB × ℕ :=
  match st with
  | (result, db, clock) =>
    match dictGet result.tasks file_path with
    | none => (result, db, clock)
    | some task =>
        let task₀ := { task with status := .processing, start_time := some clock }
        match processFile env db file_path with
        | (.ok res, db') =>
            let task' := { task₀ with
              status := .completed, end_time := some (clock + 1),
              result := some res.1, extraction_stats := some res.2 }
            ({ result with
                tasks := dictInsert result.tasks file_path task',
                completed_files := result.completed_files + 1,
                total_duration := result.total_duration + task'.duration,
                total_parameters := result.total_parameters + resultParamCount res.1 },
             db', clock + 2)
        | (.error msg, db') =>
            let task' := { task₀ with
              status := .failed, end_time := some (clock + 1),
              error_message := some msg }
            ({ result with
                tasks := dictInsert result.tasks file_path task',
                failed_files := result.failed_files + 1,
                total_duration := result.total_duration + task'.duration },
             db', clock + 2)

/-- The runner `process_batch_async` (lines 306–399), serialised in
`completion_order` like the synchronous runner. -/
def processBatchAsync (env : BatchEnv) (db : Option DedupDB) (file_paths : List String)
    (max_workers : ℕ) (completion_order : List String) (clock : ℕ) :
    Except String BatchResult :=
  match createTasksFrom env [] file_paths with
  | .error e => .error e
  | .ok tasks =>
      match completion_order.foldl (completionStepAsync env)
        (initBatch file_paths clock tasks, db, clock + 1) with
      | (result, _, clock') => .ok { result with end_time := some clock' }

/-- A `FileTask` with its timing erased, for comparing the synchronous
and asynchronous runners' aggregation. -/
def FileTask.core (t : FileTask) : FileTask :=
  { t with start_time := none, end_time := none }

/-- A `BatchResult` with all timing erased. -/
def BatchResult.core (b : BatchResult) : BatchResult :=
  { b with
    start_time := 0, end_time := none, total_duration := 0,
    tasks := b.tasks.map fun e => (e.1, FileTask.core e.2) }

/-! ## Concrete instances used by the witnesses, counterexamples and
scenario theorems -/

/-- A concrete good primary extraction result, used to witness C1. -/
def goodVariant : PartVariant where
  part_number := "FTLX8571"
  parameters :=
    [{ name := "data_rate", value := "10", confidence := 9/10 },
     { name := "temperature_range", value := "0 to 70", confidence := 8/10 },
     { name := "power_consumption", value := "1", confidence := 7/10 }]

/-- A concrete good primary extraction result, used to witness C1. -/
def goodResult : DatasheetExtraction where
  supplier := "Finisar"
  product_family := "Optical Transceivers"
  variants := [goodVariant]

/-- Parameter A as extracted by the primary method (`A@0.9`). -/
def scenarioParamA : Parameter :=
  { name := "A", value := "1", confidence := 9/10, extraction_method := "pattern" }

/-- Parameter A as extracted by the fallback method (`A@0.7`). -/
def scenarioParamA2 : Parameter :=
  { name := "A", value := "2", confidence := 7/10, extraction_method := "ai" }

/-- Parameter B as extracted by the fallback method (`B@0.95`). -/
def scenarioParamB : Parameter :=
  { name := "B", value := "3", confidence := 95/100, extraction_method := "ai" }

/-- The primary variant of the merge scenario. -/
def scenarioVariantPrimary : PartVariant :=
  { part_number := "PN-1", parameters := [scenarioParamA] }

/-- The fallback variant of the merge scenario. -/
def scenarioVariantFallback : PartVariant :=
  { part_number := "PN-1", parameters := [scenarioParamA2, scenarioParamB] }

/-- The primary result of the merge scenario. -/
def scenarioPrimary : DatasheetExtraction where
  supplier := "Unknown"
  product_family := "Transceivers"
  variants := [scenarioVariantPrimary]

/-- The fallback result of the merge scenario. -/
def scenarioFallback : DatasheetExtraction where
  supplier := "Acme"
  product_family := "Transceivers"
  variants := [scenarioVariantFallback]

/-- The sum `completed_files + failed_files + skipped_files`. -/
def counterSum (b : BatchResult) : ℕ :=
  b.completed_files + b.failed_files + b.skipped_files

/-- A task that ended in a terminal state with any failure captured. -/
def capturedTask (t : FileTask) : Prop :=
  t.status = .completed ∨ (t.status = .failed ∧ t.error_message.isSome = true)

/-- An environment in which every file exists with one content byte and
extraction always succeeds with an empty result. -/
def plainEnv : BatchEnv where
  fs := fun _ => some [1]
  extract := fun _ => .ok { supplier := "S", product_family := "F", variants := [] }

/-- An environment in which no file exists. -/
def missingFileEnv : BatchEnv where
  fs := fun _ => none
  extract := fun fp => .error ("unreadable: " ++ fp)

/-- The extraction result used in the dedup run (no parameters, so the
whole run is computable by kernel reduction). -/
def dedupResult : DatasheetExtraction :=
  { supplier := "Acme", product_family := "Transceivers", variants := [] }

/-- Two files with identical content bytes, extraction always succeeds. -/
def dedupEnv : BatchEnv where
  fs := fun fp => if fp = "a.pdf" ∨ fp = "b.pdf" then some [7, 7] else none
  extract := fun _ => .ok dedupResult

/-- A batch of two files, one completed and one failed. -/
def halfBatch : BatchResult :=
  { total_files := 2, completed_files := 1, failed_files := 1, start_time := 0 }

/-! ## Association-list lemmas -/

theorem dictGet_insert_self {α : Type} (d : List (String × α)) (k : String) (v : α) :
    dictGet (dictInsert d k v) k = some v := by
  induction d with
  | nil => simp [dictInsert, dictGet]
  | cons hd tl ih =>
      obtain ⟨k', v'⟩ := hd
      by_cases h : k' = k <;> simp [dictInsert, dictGet, h, ih]

theorem dictGet_insert_ne {α : Type} (d : List (String × α)) {k k' : String} (v : α)
    (h : k' ≠ k) : dictGet (dictInsert d k v) k' = dictGet d k' := by
  induction d with
  | nil => simp [dictInsert, dictGet, Ne.symm h]
  | cons hd tl ih =>
      obtain ⟨k'', v''⟩ := hd
      by_cases h2 : k'' = k
      · subst h2
        simp [dictInsert, dictGet, Ne.symm h]
      · by_cases h3 : k'' = k'
        · subst h3
          simp [dictInsert, dictGet, h2]
        · simp [dictInsert, dictGet, h2, h3, ih]

theorem mem_of_dictGet {α : Type} {d : List (String × α)} {k : String} {v : α}
    (h : dictGet d k = some v) : (k, v) ∈ d := by
  induction d with
  | nil => simp [dictGet] at h
  | cons hd tl ih =>
      obtain ⟨k', v'⟩ := hd
      by_cases h2 : k' = k
      · subst h2
        simp [dictGet] at h
        simp [h]
      · simp [dictGet, h2] at h
        exact List.mem_cons_of_mem _ (ih h)

theorem dictInsert_of_notMem {α : Type} {d : List (String × α)} {k : String} (v : α)
    (h : k ∉ d.map Prod.fst) : dictInsert d k v = d ++ [(k, v)] := by
  induction d with
  | nil => simp [dictInsert]
  | cons hd tl ih =>
      obtain ⟨k', v'⟩ := hd
      simp only [List.map_cons, List.mem_cons] at h
      push_neg at h
      simp [dictInsert, Ne.symm h.1, ih h.2]

/-- Folding fresh-keyed insertions appends the keyed pairs in order. -/
theorem foldl_dictInsert_of_fresh {α β : Type} (key : β → String) (val : β → α) :
    ∀ (l : List β) (d : List (String × α)),
      (∀ b ∈ l, key b ∉ d.map Prod.fst) → (l.map key).Nodup →
      l.foldl (fun d b => dictInsert d (key b) (val b)) d =
        d ++ l.map fun b => (key b, val b) := by
  intro l
  induction l with
  | nil => simp
  | cons b tl ih =>
      intro d hfresh hnd
      simp only [List.foldl_cons]
      rw [dictInsert_of_notMem (val b) (hfresh b (List.mem_cons_self b tl))]
      rw [ih (d ++ [(key b, val b)]) ?_ (by simp_all)]
      · simp
      · intro c hc
        simp only [List.map_append, List.mem_append, List.map_cons] at *
        push_neg
        refine ⟨hfresh c (List.mem_cons_of_mem _ hc), ?_⟩
        simp only [List.map_cons, List.nodup_cons] at hnd
        intro hkey
        simp only [List.mem_singleton, List.map_nil, Prod.fst] at hkey
        exact hnd.1 (hkey ▸ List.mem_map_of_mem key hc)

theorem dictGet_map_of_nodup {α β : Type} (key : β → String) (val : β → α) :
    ∀ (l : List β) (b : β), b ∈ l → (l.map key).Nodup →
      dictGet (l.map fun x => (key x, val x)) (key b) = some (val b) := by
  intro l
  induction l with
  | nil => simp
  | cons c tl ih =>
      intro b hmem hnd
      simp only [List.map_cons, List.nodup_cons] at hnd
      rcases List.mem_cons.mp hmem with h | h
      · subst h
        simp [dictGet]
      · have hne : key c ≠ key b := by
          intro he
          exact hnd.1 (he ▸ List.mem_map_of_mem key h)
        simp [dictGet, hne, ih b h hnd.2]

/-! ## Frame lemmas for the merge folds -/

theorem dictGet_mergeParamsStep_ne (d : List (String × Parameter)) (p : Parameter)
    {k : String} (h : k ≠ p.name) :
    dictGet (mergeParamsStep d p) k = dictGet d k := by
  unfold mergeParamsStep
  cases dictGet d p.name with
  | none => exact dictGet_insert_ne d p h
  | some ep =>
      by_cases hc : ep.confidence < p.confidence <;>
        simp [hc, dictGet_insert_ne d _ h]

theorem dictGet_foldl_mergeParamsStep_ne :
    ∀ (ps : List Parameter) (d : List (String × Parameter)) (k : String),
      (∀ p ∈ ps, p.name ≠ k) →
      dictGet (ps.foldl mergeParamsStep d) k = dictGet d k := by
  intro ps
  induction ps with
  | nil => simp
  | cons p tl ih =>
      intro d k hne
      simp only [List.foldl_cons]
      rw [ih _ _ (fun q hq => hne q (List.mem_cons_of_mem _ hq)),
        dictGet_mergeParamsStep_ne d p (fun he => hne p (List.mem_cons_self p tl) he.symm)]

theorem dictGet_mergeVariantStep_ne (d : List (String × VariantEntry)) (v : PartVariant)
    {k : String} (h : k ≠ v.part_number) :
    dictGet (mergeVariantStep d v) k = dictGet d k := by
  unfold mergeVariantStep
  cases dictGet d v.part_number with
  | none => exact dictGet_insert_ne d _ h
  | some e => simp [dictGet_insert_ne d _ h]

theorem dictGet_foldl_mergeVariantStep_ne :
    ∀ (vs : List PartVariant) (d : List (String × VariantEntry)) (k : String),
      (∀ v ∈ vs, v.part_number ≠ k) →
      dictGet (vs.foldl mergeVariantStep d) k = dictGet d k := by
  intro vs
  induction vs with
  | nil => simp
  | cons v tl ih =>
      intro d k hne
      simp only [List.foldl_cons]
      rw [ih _ _ (fun w hw => hne w (List.mem_cons_of_mem _ hw)),
        dictGet_mergeVariantStep_ne d v (fun he => hne v (List.mem_cons_self v tl) he.symm)]

theorem mergeParamsStep_found (d : List (String × Parameter)) (q ep : Parameter)
    (h : dictGet d q.name = some ep) :
    mergeParamsStep d q =
      dictInsert d q.name
        (if ep.confidence < q.confidence then
          { q with confidence := min 1 (q.confidence + CONFIDENCE_BOOST) }
         else
          { ep with confidence := min 1 (ep.confidence + CONFIDENCE_BOOST) }) := by
  simp only [mergeParamsStep, h]
  split <;> rfl

theorem mergeVariantStep_found (d : List (String × VariantEntry)) (v : PartVariant)
    (e : VariantEntry) (h : dictGet d v.part_number = some e) :
    mergeVariantStep d v =
      dictInsert d v.part_number
        { part_number := e.part_number,
          description := if e.description = "" ∧ v.description ≠ "" then
                           v.description
                         else e.description,
          parameters := v.parameters.foldl mergeParamsStep e.parameters } := by
  unfold mergeVariantStep
  rw [h]

/-- In a list with `Nodup` keys, every element left or right of a split
point has a key different from the split element's. -/
theorem nodup_split_keys {β : Type} (key : β → String) {l₁ l₂ : List β} {b : β}
    (h : ((l₁ ++ b :: l₂).map key).Nodup) :
    (∀ c ∈ l₁, key c ≠ key b) ∧ (∀ c ∈ l₂, key c ≠ key b) := by
  simp only [List.map_append, List.map_cons, List.nodup_append, List.nodup_cons] at h
  obtain ⟨h1, ⟨h2, h3⟩, h4⟩ := h
  refine ⟨fun c hc he => ?_, fun c hc he => ?_⟩
  · exact h4 (List.mem_map_of_mem key hc) (by simp [he])
  · exact h2 (he ▸ List.mem_map_of_mem key hc)

/-- C3. Merge confidence monotonicity: for well-keyed inputs with
confidences in `[0,1]`, every parameter name present (under the same part
number) in both the primary and the fallback result appears in the merged
result with confidence at least `max` of the two input confidences and at
most `1`. -/
theorem merge_confidence_monotone
    (p a : DatasheetExtraction)
    (hpk : uniquelyKeyed p) (hak : uniquelyKeyed a)
    (hpb : confBounded p) (hab : confBounded a)
    {pv av : PartVariant} (hpv : pv ∈ p.variants) (hav : av ∈ a.variants)
    (hpn : av.part_number = pv.part_number)
    {pp ap : Parameter} (hpp : pp ∈ pv.parameters) (hap : ap ∈ av.parameters)
    (hname : ap.name = pp.name) :
    ∃ mv ∈ (mergeExtractionResults p a).variants, mv.part_number = pv.part_number ∧
      ∃ mp ∈ mv.parameters, mp.name = pp.name ∧
        max pp.confidence ap.confidence ≤ mp.confidence ∧ mp.confidence ≤ 1 := by
  -- the pattern-side `all_variants` dict is the keyed list of pattern variants
  have hbase : p.variants.foldl
      (fun d v => dictInsert d v.part_number (mkVariantEntry v)) [] =
      p.variants.map fun v => (v.part_number, mkVariantEntry v) := by
    simpa using
      foldl_dictInsert_of_fresh PartVariant.part_number mkVariantEntry p.variants []
        (by simp) hpk.1
  have hget_base : dictGet
      (p.variants.foldl (fun d v => dictInsert d v.part_number (mkVariantEntry v)) [])
      pv.part_number = some (mkVariantEntry pv) := by
    rw [hbase]
    exact dictGet_map_of_nodup PartVariant.part_number mkVariantEntry p.variants pv hpv hpk.1
  -- split the AI variants around `av`
  obtain ⟨l₁, l₂, hsplit⟩ := List.append_of_mem hav
  have hkeys : (∀ c ∈ l₁, c.part_number ≠ av.part_number) ∧
      ∀ c ∈ l₂, c.part_number ≠ av.part_number :=
    nodup_split_keys PartVariant.part_number (hsplit ▸ hak.1)
  have hd₁ : dictGet (l₁.foldl mergeVariantStep
      (p.variants.foldl (fun d v => dictInsert d v.part_number (mkVariantEntry v)) []))
      pv.part_number = some (mkVariantEntry pv) := by
    rw [dictGet_foldl_mergeVariantStep_ne l₁ _ pv.part_number
      (fun c hc => hpn ▸ hkeys.1 c hc)]
    exact hget_base
  -- the parameters dict of the pattern variant is its keyed parameter list
  have hpd : paramsDict pv.parameters = pv.parameters.map fun q => (q.name, q) := by
    simpa [paramsDict] using
      foldl_dictInsert_of_fresh Parameter.name id pv.parameters [] (by simp) (hpk.2 pv hpv)
  have hget_pp : dictGet (paramsDict pv.parameters) pp.name = some pp := by
    rw [hpd]
    simpa using dictGet_map_of_nodup Parameter.name id pv.parameters pp hpp (hpk.2 pv hpv)
  -- split the AI parameters of `av` around `ap`
  obtain ⟨m₁, m₂, hmsplit⟩ := List.append_of_mem hap
  have hnames : (∀ c ∈ m₁, c.name ≠ ap.name) ∧ ∀ c ∈ m₂, c.name ≠ ap.name :=
    nodup_split_keys Parameter.name (hmsplit ▸ hak.2 av hav)
  have hd₂ : dictGet (m₁.foldl mergeParamsStep (paramsDict pv.parameters)) pp.name
      = some pp := by
    rw [dictGet_foldl_mergeParamsStep_ne m₁ _ pp.name
      (fun c hc => hname ▸ hnames.1 c hc)]
    exact hget_pp
  -- the cross-validation step for `ap`
  set mp : Parameter :=
    if pp.confidence < ap.confidence then
      { ap with confidence := min 1 (ap.confidence + CONFIDENCE_BOOST) }
    else
      { pp with confidence := min 1 (pp.confidence + CONFIDENCE_BOOST) } with hmp
  have hstep : dictGet (mergeParamsStep
        (m₁.foldl mergeParamsStep (paramsDict pv.parameters)) ap) pp.name = some mp := by
    rw [mergeParamsStep_found _ ap pp (hname ▸ hd₂), hmp, ← hname]
    exact dictGet_insert_self _ ap.name _
  have hparams : dictGet
      (av.parameters.foldl mergeParamsStep (paramsDict pv.parameters)) pp.name
      = some mp := by
    rw [hmsplit, List.foldl_append, List.foldl_cons]
    rw [dictGet_foldl_mergeParamsStep_ne m₂ _ pp.name
      (fun c hc => hname ▸ hnames.2 c hc)]
    exact hstep
  -- the merged entry for `pv.part_number`
  set e2 : VariantEntry :=
    { part_number := (mkVariantEntry pv).part_number,
      description := if (mkVariantEntry pv).description = "" ∧ av.description ≠ "" then
                       av.description
                     else (mkVariantEntry pv).description,
      parameters := av.parameters.foldl mergeParamsStep (mkVariantEntry pv).parameters }
    with he2
  have hmerged : dictGet (mergedVariantsDict p a) pv.part_number = some e2 := by
    rw [mergedVariantsDict, hsplit, List.foldl_append, List.foldl_cons]
    rw [dictGet_foldl_mergeVariantStep_ne l₂ _ pv.part_number
      (fun c hc => hpn ▸ hkeys.2 c hc)]
    rw [mergeVariantStep_found _ av (mkVariantEntry pv) (hpn ▸ hd₁), ← hpn]
    exact dictGet_insert_self _ av.part_number _
  refine ⟨{ part_number := e2.part_number, parameters := dictValues e2.parameters,
            description := e2.description }, ?_, ?_, mp, ?_, ?_⟩
  · exact List.mem_map_of_mem _ (mem_of_dictGet hmerged)
  · rw [he2]
    rfl
  · have : (pp.name, mp) ∈ e2.parameters := by
      apply mem_of_dictGet
      rw [he2]
      exact hparams
    exact List.mem_map_of_mem Prod.snd this
  · obtain ⟨hpp0, hpp1⟩ := hpb pv hpv pp hpp
    obtain ⟨hap0, hap1⟩ := hab av hav ap hap
    rw [hmp]
    by_cases hc : pp.confidence < ap.confidence
    · rw [if_pos hc]
      refine ⟨hname, ?_, min_le_left _ _⟩
      rw [max_eq_right (le_of_lt hc)]
      exact le_min hap1 (by norm_num [CONFIDENCE_BOOST])
    · rw [if_neg hc]
      refine ⟨rfl, ?_, min_le_left _ _⟩
      rw [max_eq_left (not_lt.mp hc)]
      exact le_min hpp1 (by norm_num [CONFIDENCE_BOOST])

/-! ## Step lemmas for the batch completion loop -/

theorem dictGet_insert_isSome {α : Type} (d : List (String × α)) (k k' : String) (v : α) :
    (dictGet (dictInsert d k v) k').isSome =
      ((dictGet d k').isSome || decide (k' = k)) := by
  by_cases h : k' = k
  · subst h
    simp [dictGet_insert_self]
  · simp [dictGet_insert_ne d v h, h]

theorem completionStep_of_none (env : BatchEnv) (st : BatchResult × Option DedupDB × ℕ)
    (fp : String) (h : dictGet st.1.tasks fp = none) :
    completionStep env st fp = st := by
  obtain ⟨result, db, clock⟩ := st
  simp only [completionStep, h]

theorem completionStep_total_files (env : BatchEnv) (st : BatchResult × Option DedupDB × ℕ)
    (fp : String) : (completionStep env st fp).1.total_files = st.1.total_files := by
  obtain ⟨result, db, clock⟩ := st
  rcases htask : dictGet result.tasks fp with _ | task
  · simp only [completionStep, htask]
  · rcases hr : processFile env db fp with ⟨r, db'⟩
    cases r with
    | ok res => simp only [completionStep, htask, hr]
    | error msg => simp only [completionStep, htask, hr]

theorem completionStep_counter_sum (env : BatchEnv) (st : BatchResult × Option DedupDB × ℕ)
    (fp : String) (h : (dictGet st.1.tasks fp).isSome = true) :
    (completionStep env st fp).1.completed_files + (completionStep env st fp).1.failed_files +
      (completionStep env st fp).1.skipped_files =
    st.1.completed_files + st.1.failed_files + st.1.skipped_files + 1 := by
  obtain ⟨result, db, clock⟩ := st
  rcases htask : dictGet result.tasks fp with _ | task
  · rw [htask] at h
    cases h
  · rcases hr : processFile env db fp with ⟨r, db'⟩
    cases r with
    | ok res => simp only [completionStep, htask, hr]; omega
    | error msg => simp only [completionStep, htask, hr]; omega

theorem completionStep_keys (env : BatchEnv) (st : BatchResult × Option DedupDB × ℕ)
    (fp k : String) :
    (dictGet (completionStep env st fp).1.tasks k).isSome =
      (dictGet st.1.tasks k).isSome := by
  obtain ⟨result, db, clock⟩ := st
  rcases htask : dictGet result.tasks fp with _ | task
  · simp only [completionStep, htask]
  · rcases hr : processFile env db fp with ⟨r, db'⟩
    have hins : ∀ v : FileTask, (dictGet (dictInsert result.tasks fp v) k).isSome =
        (dictGet result.tasks k).isSome := by
      intro v
      rw [dictGet_insert_isSome]
      by_cases hk : k = fp
      · subst hk
        simp [htask]
      · simp [hk]
    cases r with
    | ok res => simp only [completionStep, htask, hr]; exact hins _
    | error msg => simp only [completionStep, htask, hr]; exact hins _

theorem foldl_completionStep_total_files (env : BatchEnv) (order : List String) :
    ∀ st, ((order.foldl (completionStep env) st).1.total_files = st.1.total_files) := by
  induction order with
  | nil => intro st; rfl
  | cons fp rest ih =>
      intro st
      rw [List.foldl_cons, ih, completionStep_total_files]

theorem foldl_completionStep_keys (env : BatchEnv) (order : List String) :
    ∀ st k, (dictGet (order.foldl (completionStep env) st).1.tasks k).isSome =
      (dictGet st.1.tasks k).isSome := by
  induction order with
  | nil => intro st k; rfl
  | cons fp rest ih =>
      intro st k
      rw [List.foldl_cons, ih, completionStep_keys]

theorem foldl_completionStep_sum (env : BatchEnv) (order : List String) :
    ∀ st, (∀ fp ∈ order, (dictGet st.1.tasks fp).isSome = true) →
      counterSum (order.foldl (completionStep env) st).1 =
        counterSum st.1 + order.length := by
  induction order with
  | nil => intro st _; simp
  | cons fp rest ih =>
      intro st h
      rw [List.foldl_cons, ih _ ?_]
      · have h2 := completionStep_counter_sum env st fp (h fp (List.mem_cons_self _ _))
        unfold counterSum at *
        simp only [List.length_cons]
        omega
      · intro q hq
        rw [completionStep_keys]
        exact h q (List.mem_cons_of_mem _ hq)

theorem createTasksFrom_ok (env : BatchEnv) :
    ∀ (fps : List String) (acc : List (String × FileTask)),
      (∀ fp ∈ fps, (env.fs fp).isSome = true) →
      ∃ tasks, createTasksFrom env acc fps = .ok tasks := by
  intro fps
  induction fps with
  | nil => intro acc _; exact ⟨acc, rfl⟩
  | cons fp rest ih =>
      intro acc h
      have h1 := h fp (List.mem_cons_self _ _)
      rcases hfs : env.fs fp with _ | content
      · rw [hfs] at h1
        cases h1
      · simp only [createTasksFrom, hfs]
        exact ih _ (fun q hq => h q (List.mem_cons_of_mem _ hq))

theorem createTasksFrom_isSome (env : BatchEnv) :
    ∀ (fps : List String) (acc tasks : List (String × FileTask)),
      createTasksFrom env acc fps = .ok tasks →
      ∀ fp, ((dictGet acc fp).isSome = true ∨ fp ∈ fps) →
        (dictGet tasks fp).isSome = true := by
  intro fps
  induction fps with
  | nil =>
      intro acc tasks h fp hm
      simp only [createTasksFrom] at h
      cases h
      rcases hm with hs | hmem
      · exact hs
      · cases hmem
  | cons fp' rest ih =>
      intro acc tasks h fp hm
      rcases hfs : env.fs fp' with _ | content
      · simp only [createTasksFrom, hfs] at h
        cases h
      · simp only [createTasksFrom, hfs] at h
        apply ih _ _ h
        rcases hm with hs | hmem
        · left
          rw [dictGet_insert_isSome]
          simp [hs]
        · rcases List.mem_cons.mp hmem with heq | hr
          · subst heq
            left
            rw [dictGet_insert_isSome]
            simp
          · right
            exact hr

theorem createTasksFrom_keys (env : BatchEnv) :
    ∀ (fps : List String) (acc tasks : List (String × FileTask)),
      createTasksFrom env acc fps = .ok tasks →
      ∀ k, (dictGet tasks k).isSome = true →
        (dictGet acc k).isSome = true ∨ k ∈ fps := by
  intro fps
  induction fps with
  | nil =>
      intro acc tasks h k hk
      simp only [createTasksFrom] at h
      cases h
      exact Or.inl hk
  | cons fp' rest ih =>
      intro acc tasks h k hk
      rcases hfs : env.fs fp' with _ | content
      · simp only [createTasksFrom, hfs] at h
        cases h
      · simp only [createTasksFrom, hfs] at h
        rcases ih _ _ h k hk with hs | hmem
        · rw [dictGet_insert_isSome] at hs
          rcases Bool.or_eq_true_iff.mp hs with hs' | hs'
          · exact Or.inl hs'
          · exact Or.inr (List.mem_cons.mpr (Or.inl (of_decide_eq_true hs')))
        · exact Or.inr (List.mem_cons_of_mem _ hmem)

/-- C7. Batch conservation: for any worker count `≥ 1` and any
completion order (a permutation of the submitted files), at every point
of the completion loop `completed + failed + skipped ≤ totalFiles` and
`is_complete` holds iff the sum equals `totalFiles`; and every
`BatchResult` returned by `process_batch_sync` has
`completed + failed + skipped = totalFiles` with `is_complete` true. -/
theorem batch_conservation (env : BatchEnv) (db : Option DedupDB)
    (file_paths : List String) (max_workers : ℕ) (order : List String) (clock : ℕ)
    (hw : 1 ≤ max_workers) (hperm : order.Perm file_paths) :
    (∀ tasks, createTasksFrom env [] file_paths = .ok tasks →
      ∀ pre suf, order = pre ++ suf →
        counterSum (syncRunState env db tasks file_paths pre clock).1 ≤
          (syncRunState env db tasks file_paths pre clock).1.total_files ∧
        ((syncRunState env db tasks file_paths pre clock).1.is_complete = true ↔
          counterSum (syncRunState env db tasks file_paths pre clock).1 =
            (syncRunState env db tasks file_paths pre clock).1.total_files)) ∧
    ∀ b, processBatchSync env db file_paths max_workers order clock = .ok b →
      counterSum b = b.total_files ∧ b.is_complete = true := by
  have hmain : ∀ tasks, createTasksFrom env [] file_paths = .ok tasks →
      ∀ pre suf, order = pre ++ suf →
      counterSum (syncRunState env db tasks file_paths pre clock).1 = pre.length ∧
      (syncRunState env db tasks file_paths pre clock).1.total_files =
        file_paths.length := by
    intro tasks htasks pre suf hsplit
    constructor
    · have hpres : ∀ fp ∈ pre,
          (dictGet (initBatch file_paths clock tasks, db, clock + 1).1.tasks fp).isSome
            = true := by
        intro fp hfp
        have hfp2 : fp ∈ file_paths :=
          hperm.mem_iff.mp (hsplit ▸ List.mem_append_left suf hfp)
        exact createTasksFrom_isSome env file_paths [] tasks htasks fp (Or.inr hfp2)
      have h2 := foldl_completionStep_sum env pre _ hpres
      unfold syncRunState
      rw [h2]
      simp [counterSum, initBatch]
    · unfold syncRunState
      rw [foldl_completionStep_total_files]
      rfl
  have hlen : order.length = file_paths.length := hperm.length_eq
  constructor
  · intro tasks htasks pre suf hsplit
    obtain ⟨hsum, htot⟩ := hmain tasks htasks pre suf hsplit
    have hple : pre.length ≤ file_paths.length := by
      rw [← hlen, hsplit, List.length_append]
      omega
    unfold counterSum at hsum ⊢
    refine ⟨by omega, ?_⟩
    simp only [BatchResult.is_complete, decide_eq_true_eq]
    omega
  · intro b hb
    unfold processBatchSync at hb
    rcases htasks : createTasksFrom env [] file_paths with e | tasks
    · rw [htasks] at hb
      cases hb
    · simp only [htasks] at hb
      rcases hst : syncRunState env db tasks file_paths order clock with ⟨res, db', clock'⟩
      rw [hst] at hb
      simp only [Except.ok.injEq] at hb
      subst hb
      dsimp only
      obtain ⟨hsum, htot⟩ := hmain tasks htasks order [] (List.append_nil order).symm
      rw [hst] at hsum htot
      have hsum2 : counterSum res = order.length := hsum
      have htot2 : res.total_files = file_paths.length := htot
      have e1 : ({ res with end_time := some clock' } : BatchResult).completed_files
          = res.completed_files := rfl
      have e2 : ({ res with end_time := some clock' } : BatchResult).failed_files
          = res.failed_files := rfl
      have e3 : ({ res with end_time := some clock' } : BatchResult).skipped_files
          = res.skipped_files := rfl
      have e4 : ({ res with end_time := some clock' } : BatchResult).total_files
          = res.total_files := rfl
      unfold counterSum at hsum2 ⊢
      constructor
      · rw [e1, e2, e3, e4]
        omega
      · simp only [BatchResult.is_complete, decide_eq_true_eq]
        rw [e1, e2, e3, e4]
        omega

/-- Witness for C7 at a one-file batch. -/
theorem batch_conservation_witness :
    (1 ≤ 1 ∧ (["a.pdf"] : List String).Perm ["a.pdf"]) ∧
    ((∀ tasks, createTasksFrom plainEnv [] ["a.pdf"] = .ok tasks →
      ∀ pre suf, ["a.pdf"] = pre ++ suf →
        counterSum (syncRunState plainEnv none tasks ["a.pdf"] pre 0).1 ≤
          (syncRunState plainEnv none tasks ["a.pdf"] pre 0).1.total_files ∧
        ((syncRunState plainEnv none tasks ["a.pdf"] pre 0).1.is_complete = true ↔
          counterSum (syncRunState plainEnv none tasks ["a.pdf"] pre 0).1 =
            (syncRunState plainEnv none tasks ["a.pdf"] pre 0).1.total_files)) ∧
    ∀ b, processBatchSync plainEnv none ["a.pdf"] 1 ["a.pdf"] 0 = .ok b →
      counterSum b = b.total_files ∧ b.is_complete = true) :=
  ⟨⟨le_refl 1, List.Perm.refl _⟩,
   batch_conservation plainEnv none ["a.pdf"] 1 ["a.pdf"] 0 (le_refl 1) (List.Perm.refl _)⟩

theorem completionStep_captured (env : BatchEnv) (st : BatchResult × Option DedupDB × ℕ)
    (fp : String) :
    ∀ k t, dictGet (completionStep env st fp).1.tasks k = some t →
      (k ≠ fp ∧ dictGet st.1.tasks k = some t) ∨ capturedTask t := by
  obtain ⟨result, db, clock⟩ := st
  intro k t hk
  rcases htask : dictGet result.tasks fp with _ | task
  · rw [completionStep_of_none env _ fp htask] at hk
    by_cases hkfp : k = fp
    · subst hkfp
      rw [htask] at hk
      cases hk
    · exact Or.inl ⟨hkfp, hk⟩
  · rcases hr : processFile env db fp with ⟨r, db'⟩
    by_cases hkfp : k = fp
    · subst hkfp
      right
      cases r with
      | ok res =>
          simp only [completionStep, htask, hr] at hk
          rw [dictGet_insert_self] at hk
          cases hk
          exact Or.inl rfl
      | error msg =>
          simp only [completionStep, htask, hr] at hk
          rw [dictGet_insert_self] at hk
          cases hk
          exact Or.inr ⟨rfl, rfl⟩
    · left
      refine ⟨hkfp, ?_⟩
      cases r with
      | ok res =>
          simp only [completionStep, htask, hr] at hk
          rwa [dictGet_insert_ne _ _ hkfp] at hk
      | error msg =>
          simp only [completionStep, htask, hr] at hk
          rwa [dictGet_insert_ne _ _ hkfp] at hk

theorem foldl_completionStep_captured (env : BatchEnv) (order : List String) :
    ∀ st, (∀ k t, dictGet st.1.tasks k = some t → capturedTask t ∨ k ∈ order) →
      ∀ k t, dictGet ((order.foldl (completionStep env) st)).1.tasks k = some t →
        capturedTask t := by
  induction order with
  | nil =>
      intro st h k t hk
      rcases h k t hk with hc | hm
      · exact hc
      · cases hm
  | cons fp rest ih =>
      intro st h k t hk
      refine ih (completionStep env st fp) ?_ k t hk
      intro k' t' hk'
      rcases completionStep_captured env st fp k' t' hk' with ⟨hne, hget⟩ | hc
      · rcases h k' t' hget with hc | hm
        · exact Or.inl hc
        · rcases List.mem_cons.mp hm with heq | hr
          · exact absurd heq hne
          · exact Or.inr hr
      · exact Or.inl hc

/-- C8, counterexample. A batch containing a file that does not exist
makes `process_batch_sync` raise: `os.path.getsize` in the task-creation
loop (line 233) runs before any per-file error handling, so the caller
gets an exception instead of a `BatchResult`, contrary to the claim. -/
theorem batch_raises_on_missing_file :
    processBatchSync missingFileEnv none ["missing.pdf"] 4 ["missing.pdf"] 0 =
      .error "No such file or directory: missing.pdf" := rfl

/-- C8, amended. Provided every input file can be stat-ed at
task-creation time, `process_batch_sync` always returns a `BatchResult`,
and each per-file failure is captured in that file's task: every task in
the returned result is either `completed`, or `failed` with a non-empty
`error_message`.  (A file missing at task creation is a batch-setup
error and aborts the whole call — see the counterexample.) -/
theorem batch_returns_result_and_captures_failures
    (env : BatchEnv) (db : Option DedupDB) (file_paths : List String)
    (max_workers : ℕ) (order : List String) (clock : ℕ)
    (hfs : ∀ fp ∈ file_paths, (env.fs fp).isSome = true)
    (hperm : order.Perm file_paths) :
    ∃ b, processBatchSync env db file_paths max_workers order clock = .ok b ∧
      ∀ fp t, dictGet b.tasks fp = some t →
        t.status = .completed ∨ (t.status = .failed ∧ t.error_message.isSome = true) := by
  obtain ⟨tasks, htasks⟩ := createTasksFrom_ok env file_paths [] hfs
  rcases hst : syncRunState env db tasks file_paths order clock with ⟨res, db', clock'⟩
  refine ⟨{ res with end_time := some clock' }, ?_, ?_⟩
  · simp only [processBatchSync, htasks, hst]
  · intro fp t ht
    have htasks_eq : ({ res with end_time := some clock' } : BatchResult).tasks
        = res.tasks := rfl
    rw [htasks_eq] at ht
    have hfold : (order.foldl (completionStep env)
        (initBatch file_paths clock tasks, db, clock + 1)).1 = res := by
      have h2 : syncRunState env db tasks file_paths order clock = (res, db', clock') := hst
      unfold syncRunState at h2
      rw [h2]
    have hinv : ∀ k t',
        dictGet (initBatch file_paths clock tasks, db, clock + 1).1.tasks k = some t' →
        capturedTask t' ∨ k ∈ order := by
      intro k t' hk
      right
      have hkey : (dictGet tasks k).isSome = true := by
        have h3 : dictGet tasks k = some t' := hk
        rw [h3]
        rfl
      rcases createTasksFrom_keys env file_paths [] tasks htasks k hkey with habs | hmem
      · simp [dictGet] at habs
      · exact hperm.mem_iff.mpr hmem
    rw [← hfold] at ht
    exact foldl_completionStep_captured env order _ hinv fp t ht

/-- Witness for the amended C8 at a one-file batch. -/
theorem batch_returns_result_witness :
    ((∀ fp ∈ (["a.pdf"] : List String), (plainEnv.fs fp).isSome = true) ∧
      (["a.pdf"] : List String).Perm ["a.pdf"]) ∧
    ∃ b, processBatchSync plainEnv none ["a.pdf"] 4 ["a.pdf"] 0 = .ok b ∧
      ∀ fp t, dictGet b.tasks fp = some t →
        t.status = .completed ∨ (t.status = .failed ∧ t.error_message.isSome = true) :=
  ⟨⟨by decide, List.Perm.refl _⟩,
   batch_returns_result_and_captures_failures plainEnv none ["a.pdf"] 4 ["a.pdf"] 0
     (by decide) (List.Perm.refl _)⟩

/-- C6. Processing two files with identical content in one run with
the dedup/storage collaborator present: the second file performs no
extraction and its recorded result references the identity stored for
the first file (`existing_id = 1`), but the batch loop marks its task
`COMPLETED` and increments `completed_files` — `skipped_files` stays `0`
and `ProcessingStatus.SKIPPED` is never assigned, even though the task's
own stats say `{"skipped": True}`.  This evaluates the code at the
claim's failing input. -/
theorem dedup_second_file_completed_not_skipped :
    (processBatchSync dedupEnv (some { records := [], next_id := 1 }) ["a.pdf", "b.pdf"] 4
        ["a.pdf", "b.pdf"] 0).map
      (fun b =>
        ((dictGet b.tasks "a.pdf").map fun t => t.result,
         (dictGet b.tasks "b.pdf").map fun t => (t.status, t.result, t.extraction_stats),
         b.completed_files, b.failed_files, b.skipped_files)) =
    .ok (some (some (.extraction dedupResult (some 1))),
         some (.completed, some (.existingId 1), some .skippedTrue), 2, 0, 0) := by
  rfl

/-- C9, counterexample. `progress` and `success_rate` are
percentages, not fractions: for a finished two-file batch with one
completed and one failed file, `progress` is `100` (not the fraction
`1`) and `success_rate` is `50`. -/
theorem progress_percentage_counterexample :
    halfBatch.progress = 100 ∧ halfBatch.success_rate = 50 ∧
    ¬ halfBatch.progress ≤ 1 ∧
    (((halfBatch.completed_files + halfBatch.failed_files + halfBatch.skipped_files : ℕ) : ℚ)
        / (halfBatch.total_files : ℚ) = 1) := by
  refine ⟨?_, ?_, ?_, ?_⟩ <;>
    norm_num [BatchResult.progress, BatchResult.success_rate, halfBatch]

/-- C9, amended. `progress` equals
`(completed+failed+skipped)/totalFiles × 100` and `success_rate` equals
`completed/totalFiles × 100` — percentages in `[0, 100]` whenever the
counters do not exceed `totalFiles` — and both are `0` when
`totalFiles = 0`. -/
theorem progress_success_rate_percentages (b : BatchResult)
    (hsum : b.completed_files + b.failed_files + b.skipped_files ≤ b.total_files) :
    b.progress = (((b.completed_files + b.failed_files + b.skipped_files : ℕ) : ℚ) /
        (b.total_files : ℚ)) * 100 ∧
    b.success_rate = ((b.completed_files : ℚ) / (b.total_files : ℚ)) * 100 ∧
    0 ≤ b.progress ∧ b.progress ≤ 100 ∧
    0 ≤ b.success_rate ∧ b.success_rate ≤ 100 ∧
    (b.total_files = 0 → b.progress = 0 ∧ b.success_rate = 0) := by
  have hprog : b.progress = (((b.completed_files + b.failed_files + b.skipped_files : ℕ) : ℚ)
      / (b.total_files : ℚ)) * 100 := by
    unfold BatchResult.progress
    split
    · rename_i h0
      rw [h0]
      norm_num
    · rfl
  have hrate : b.success_rate = ((b.completed_files : ℚ) / (b.total_files : ℚ)) * 100 := by
    unfold BatchResult.success_rate
    split
    · rename_i h0
      rw [h0]
      norm_num
    · rfl
  by_cases h0 : b.total_files = 0
  · have hz : (b.total_files : ℚ) = 0 := by
      rw [h0]
      norm_num
    have hp0 : b.progress = 0 := by
      rw [hprog, hz]
      norm_num
    have hr0 : b.success_rate = 0 := by
      rw [hrate, hz]
      norm_num
    exact ⟨hprog, hrate, by rw [hp0], by rw [hp0]; norm_num, by rw [hr0],
      by rw [hr0]; norm_num, fun _ => ⟨hp0, hr0⟩⟩
  · have hpos : (0 : ℚ) < (b.total_files : ℚ) := by
      exact_mod_cast Nat.pos_of_ne_zero h0
    have hsum2 : ((b.completed_files + b.failed_files + b.skipped_files : ℕ) : ℚ) ≤
        (b.total_files : ℚ) := by
      exact_mod_cast hsum
    have hcomp : ((b.completed_files : ℕ) : ℚ) ≤ (b.total_files : ℚ) := by
      have h3 : b.completed_files ≤ b.total_files := by omega
      exact_mod_cast h3
    refine ⟨hprog, hrate, ?_, ?_, ?_, ?_, fun h => absurd h h0⟩
    · rw [hprog]
      positivity
    · rw [hprog]
      have h4 := (div_le_one hpos).mpr hsum2
      linarith
    · rw [hrate]
      positivity
    · rw [hrate]
      have h4 := (div_le_one hpos).mpr hcomp
      linarith

/-- Witness for the amended C9 at the two-file batch. -/
theorem progress_success_rate_percentages_witness :
    (halfBatch.completed_files + halfBatch.failed_files + halfBatch.skipped_files ≤
      halfBatch.total_files) ∧
    (halfBatch.progress = (((halfBatch.completed_files + halfBatch.failed_files +
          halfBatch.skipped_files : ℕ) : ℚ) / (halfBatch.total_files : ℚ)) * 100 ∧
     halfBatch.success_rate =
        ((halfBatch.completed_files : ℚ) / (halfBatch.total_files : ℚ)) * 100 ∧
     0 ≤ halfBatch.progress ∧ halfBatch.progress ≤ 100 ∧
     0 ≤ halfBatch.success_rate ∧ halfBatch.success_rate ≤ 100 ∧
     (halfBatch.total_files = 0 → halfBatch.progress = 0 ∧ halfBatch.success_rate = 0)) :=
  ⟨by decide, progress_success_rate_percentages halfBatch (by decide)⟩

/-! ## Synchronous versus asynchronous aggregation -/

theorem dictGet_map_value {α β : Type} (f : α → β) :
    ∀ (d : List (String × α)) (k : String),
      dictGet (d.map fun e => (e.1, f e.2)) k = (dictGet d k).map f := by
  intro d
  induction d with
  | nil => intro k; rfl
  | cons hd tl ih =>
      intro k
      obtain ⟨k', v⟩ := hd
      by_cases h : k' = k <;> simp [dictGet, h, ih]

theorem dictInsert_map_value {α β : Type} (f : α → β) :
    ∀ (d : List (String × α)) (k : String) (v : α),
      (dictInsert d k v).map (fun e => (e.1, f e.2)) =
        dictInsert (d.map fun e => (e.1, f e.2)) k (f v) := by
  intro d
  induction d with
  | nil => intro k v; rfl
  | cons hd tl ih =>
      intro k v
      obtain ⟨k', v'⟩ := hd
      by_cases h : k' = k <;> simp [dictInsert, h, ih]

theorem completionStepAsync_of_none (env : BatchEnv)
    (st : BatchResult × Option DedupDB × ℕ) (fp : String)
    (h : dictGet st.1.tasks fp = none) : completionStepAsync env st fp = st := by
  obtain ⟨result, db, clock⟩ := st
  simp only [completionStepAsync, h]

/-- One synchronous and one asynchronous completion step starting from
timing-equal states produce timing-equal states with equal databases. -/
theorem completionStep_core (env : BatchEnv)
    (st_s st_a : BatchResult × Option DedupDB × ℕ) (fp : String)
    (hcore : st_s.1.core = st_a.1.core) (hdb : st_s.2.1 = st_a.2.1) :
    (completionStep env st_s fp).1.core = (completionStepAsync env st_a fp).1.core ∧
    (completionStep env st_s fp).2.1 = (completionStepAsync env st_a fp).2.1 := by
  obtain ⟨rs, dbs, cs⟩ := st_s
  obtain ⟨ra, dba, ca⟩ := st_a
  replace hcore : rs.core = ra.core := hcore
  replace hdb : dbs = dba := hdb
  subst hdb
  have htasks : rs.tasks.map (fun e => (e.1, FileTask.core e.2)) =
      ra.tasks.map (fun e => (e.1, FileTask.core e.2)) := by
    have h5 := congrArg BatchResult.tasks hcore
    exact h5
  have hget : (dictGet rs.tasks fp).map FileTask.core =
      (dictGet ra.tasks fp).map FileTask.core := by
    rw [← dictGet_map_value, ← dictGet_map_value, htasks]
  have hcomp : rs.completed_files = ra.completed_files := by
    have h5 := congrArg BatchResult.completed_files hcore
    exact h5
  have hfail : rs.failed_files = ra.failed_files := by
    have h5 := congrArg BatchResult.failed_files hcore
    exact h5
  have hskip : rs.skipped_files = ra.skipped_files := by
    have h5 := congrArg BatchResult.skipped_files hcore
    exact h5
  have htotf : rs.total_files = ra.total_files := by
    have h5 := congrArg BatchResult.total_files hcore
    exact h5
  have htotp : rs.total_parameters = ra.total_parameters := by
    have h5 := congrArg BatchResult.total_parameters hcore
    exact h5
  rcases hts : dictGet rs.tasks fp with _ | task_s
  · rcases hta : dictGet ra.tasks fp with _ | task_a
    · rw [completionStep_of_none env (rs, dbs, cs) fp hts,
        completionStepAsync_of_none env (ra, dbs, ca) fp hta]
      exact ⟨hcore, rfl⟩
    · rw [hts, hta] at hget
      simp at hget
  · rcases hta : dictGet ra.tasks fp with _ | task_a
    · rw [hts, hta] at hget
      simp at hget
    · rw [hts, hta] at hget
      replace hget : task_s.core = task_a.core := Option.some.inj hget
      have f1 : task_s.file_path = task_a.file_path := by
        have h5 := congrArg FileTask.file_path hget
        exact h5
      have f2 : task_s.file_name = task_a.file_name := by
        have h5 := congrArg FileTask.file_name hget
        exact h5
      have f3 : task_s.file_size = task_a.file_size := by
        have h5 := congrArg FileTask.file_size hget
        exact h5
      have f5 : task_s.error_message = task_a.error_message := by
        have h5 := congrArg FileTask.error_message hget
        exact h5
      have f6 : task_s.result = task_a.result := by
        have h5 := congrArg FileTask.result hget
        exact h5
      have f7 : task_s.extraction_stats = task_a.extraction_stats := by
        have h5 := congrArg FileTask.extraction_stats hget
        exact h5
      rcases hr : processFile env dbs fp with ⟨r, db'⟩
      cases r with
      | ok res =>
          simp only [completionStep, completionStepAsync, hts, hta, hr]
          refine ⟨?_, by first | rfl | trivial⟩
          simp [BatchResult.core, BatchResult.mk.injEq, dictInsert_map_value, htasks,
            hcomp, hfail, hskip, htotf, htotp]
          all_goals congr 1
          all_goals simp [FileTask.core, FileTask.mk.injEq, f1, f2, f3, f5, f6, f7]
      | error msg =>
          simp only [completionStep, completionStepAsync, hts, hta, hr]
          refine ⟨?_, by first | rfl | trivial⟩
          simp [BatchResult.core, BatchResult.mk.injEq, dictInsert_map_value, htasks,
            hcomp, hfail, hskip, htotf, htotp]
          all_goals congr 1
          all_goals simp [FileTask.core, FileTask.mk.injEq, f1, f2, f3, f5, f6, f7]

theorem foldl_completionStep_core (env : BatchEnv) (order : List String) :
    ∀ (st_s st_a : BatchResult × Option DedupDB × ℕ),
      st_s.1.core = st_a.1.core → st_s.2.1 = st_a.2.1 →
      (order.foldl (completionStep env) st_s).1.core =
        (order.foldl (completionStepAsync env) st_a).1.core := by
  induction order with
  | nil => intro st_s st_a hcore _; exact hcore
  | cons fp rest ih =>
      intro st_s st_a hcore hdb
      obtain ⟨h1, h2⟩ := completionStep_core env st_s st_a fp hcore hdb
      exact ih _ _ h1 h2

/-- C10, counterexample. The two batch runners do not share timing
semantics: for a one-file batch, the synchronous runner never sets
`start_time` (the task's `duration` is `0` and `total_duration` stays
`0`), while the asynchronous runner stamps `start_time` and accumulates
a positive `total_duration`, so their `BatchResult`s differ. -/
theorem sync_async_timing_counterexample :
    (processBatchSync plainEnv none ["a.pdf"] 4 ["a.pdf"] 0).map
        (fun b => (b.total_duration, (dictGet b.tasks "a.pdf").map fun t => t.start_time)) =
      .ok (0, some none) ∧
    (processBatchAsync plainEnv none ["a.pdf"] 4 ["a.pdf"] 0).map
        (fun b => (b.total_duration, (dictGet b.tasks "a.pdf").map fun t => t.start_time)) =
      .ok (1, some (some 1)) ∧
    ((0, some none) : ℕ × Option (Option ℕ)) ≠ (1, some (some 1)) := by
  refine ⟨rfl, rfl, by decide⟩

/-- C10, amended. Erasing all timing (batch `start_time`/`end_time`/
`total_duration`, per-task `start_time`/`end_time`), the synchronous and
asynchronous runners agree for every environment, database, file list,
worker count and completion order: same per-task terminal statuses,
error messages, results and stats, and same counters and
`total_parameters`.  They differ exactly in the erased timing fields:
the synchronous runner never sets task `start_time`, so its per-task
durations and `total_duration` are `0`, while the asynchronous runner
stamps `start_time` and accumulates positive durations. -/
theorem sync_async_same_aggregation (env : BatchEnv) (db : Option DedupDB)
    (file_paths : List String) (max_workers : ℕ) (order : List String)
    (clock clock' : ℕ) :
    (processBatchSync env db file_paths max_workers order clock).map BatchResult.core =
      (processBatchAsync env db file_paths max_workers order clock').map
        BatchResult.core := by
  unfold processBatchSync processBatchAsync syncRunState
  rcases hct : createTasksFrom env [] file_paths with e | tasks
  · rfl
  · rcases hs : order.foldl (completionStep env)
        (initBatch file_paths clock tasks, db, clock + 1) with ⟨res_s, dbs, cs⟩
    rcases ha : order.foldl (completionStepAsync env)
        (initBatch file_paths clock' tasks, db, clock' + 1) with ⟨res_a, dba, ca⟩
    simp only [hs, ha, Except.map]
    have hcore : res_s.core = res_a.core := by
      have h2 := foldl_completionStep_core env order
        (initBatch file_paths clock tasks, db, clock + 1)
        (initBatch file_paths clock' tasks, db, clock' + 1) rfl rfl
      rw [hs, ha] at h2
      exact h2
    have hend : ({ res_s with end_time := some cs } : BatchResult).core = res_s.core := rfl
    have hend' : ({ res_a with end_time := some ca } : BatchResult).core = res_a.core := rfl
    rw [hend, hend', hcore]

end DatasheetAI

namespace DatasheetAI

/-- C1. For every primary extraction result with at least 3 extracted
parameters, average confidence at least 0.6, a known supplier, an
identified product family and at least one variant whose part number is
not `"Unknown"`-prefixed, the fallback decision
(`force_ai or _needs_ai_extraction(...)` with `force_ai = False` and an
AI extractor configured) returns `false`. -/
theorem needsAI_false_of_good_pattern_result
    (r : DatasheetExtraction)
    (hcount : MIN_PARAMETERS_THRESHOLD ≤ paramsCount r)
    (hconf : MIN_PATTERN_CONFIDENCE ≤ avgConfidence r)
    (hsup : r.supplier ≠ "Unknown")
    (hfam : r.product_family ≠ "General Electronics")
    (hpart : ∃ v ∈ r.variants, strStartsWith v.part_number "Unknown" = false) :
    needsAI true r (paramsCount r) (avgConfidence r) false = false := by
  obtain ⟨v, hv, hvpn⟩ := hpart
  have hne : r.variants.isEmpty = false := by
    cases hr : r.variants with
    | nil => rw [hr] at hv; cases hv
    | cons a l => rfl
  have hnall : r.variants.all (fun v => strStartsWith v.part_number "Unknown") = false := by
    rcases hall : r.variants.all (fun v => strStartsWith v.part_number "Unknown") with _ | _
    · rfl
    · have := List.all_eq_true.mp hall v hv
      rw [hvpn] at this
      cases this
  have h1 : ¬ (paramsCount r < MIN_PARAMETERS_THRESHOLD) := not_lt.mpr hcount
  have h2 : ¬ (avgConfidence r < MIN_PATTERN_CONFIDENCE) := not_lt.mpr hconf
  simp [needsAI, needsAIExtraction, h1, h2, hsup, hfam, hne, hnall]

/-- Witness for C1 at a concrete good extraction result. -/
theorem needsAI_false_of_good_pattern_result_witness :
    needsAI true goodResult (paramsCount goodResult) (avgConfidence goodResult) false = false :=
  needsAI_false_of_good_pattern_result goodResult (by decide)
    (by norm_num [avgConfidence, confidenceSum, paramsCount, goodResult, goodVariant,
      MIN_PATTERN_CONFIDENCE])
    (by decide) (by decide)
    ⟨goodVariant, by simp [goodResult], by rfl⟩

/-- C2. When no AI extractor is configured, `_needs_ai_extraction`
returns `false` for every primary result, and the AI extractor is never
invoked by `extract_from_file`, even when `force_ai` is set or any other
trigger condition holds. -/
theorem no_fallback_when_absent (r : DatasheetExtraction) (params_count : ℕ)
    (avg_confidence : ℚ) (force_ai : Bool) :
    needsAIExtraction false r params_count avg_confidence = false ∧
    aiInvoked false r params_count avg_confidence force_ai = false := by
  constructor
  · simp [needsAIExtraction]
  · simp [aiInvoked]

/-- Witness for C3 at the concrete merge scenario. -/
theorem merge_confidence_monotone_witness :
    (uniquelyKeyed scenarioPrimary ∧ uniquelyKeyed scenarioFallback ∧
     confBounded scenarioPrimary ∧ confBounded scenarioFallback ∧
     scenarioVariantPrimary ∈ scenarioPrimary.variants ∧
     scenarioVariantFallback ∈ scenarioFallback.variants ∧
     scenarioVariantFallback.part_number = scenarioVariantPrimary.part_number ∧
     scenarioParamA ∈ scenarioVariantPrimary.parameters ∧
     scenarioParamA2 ∈ scenarioVariantFallback.parameters ∧
     scenarioParamA2.name = scenarioParamA.name) ∧
    ∃ mv ∈ (mergeExtractionResults scenarioPrimary scenarioFallback).variants,
      mv.part_number = scenarioVariantPrimary.part_number ∧
      ∃ mp ∈ mv.parameters, mp.name = scenarioParamA.name ∧
        max scenarioParamA.confidence scenarioParamA2.confidence ≤ mp.confidence ∧
        mp.confidence ≤ 1 := by
  have h1 : uniquelyKeyed scenarioPrimary := by
    simp [uniquelyKeyed, scenarioPrimary, scenarioVariantPrimary, scenarioParamA]
  have h2 : uniquelyKeyed scenarioFallback := by
    simp [uniquelyKeyed, scenarioFallback, scenarioVariantFallback, scenarioParamA2,
      scenarioParamB]
  have h3 : confBounded scenarioPrimary := by
    norm_num [confBounded, scenarioPrimary, scenarioVariantPrimary, scenarioParamA]
  have h4 : confBounded scenarioFallback := by
    norm_num [confBounded, scenarioFallback, scenarioVariantFallback, scenarioParamA2,
      scenarioParamB]
  have hm1 : scenarioVariantPrimary ∈ scenarioPrimary.variants :=
    List.mem_singleton.mpr rfl
  have hm2 : scenarioVariantFallback ∈ scenarioFallback.variants :=
    List.mem_singleton.mpr rfl
  have hp1 : scenarioParamA ∈ scenarioVariantPrimary.parameters :=
    List.mem_singleton.mpr rfl
  have hp2 : scenarioParamA2 ∈ scenarioVariantFallback.parameters :=
    List.mem_cons_self _ _
  exact ⟨⟨h1, h2, h3, h4, hm1, hm2, rfl, hp1, hp2, rfl⟩,
    merge_confidence_monotone scenarioPrimary scenarioFallback h1 h2 h3 h4 hm1 hm2 rfl
      hp1 hp2 rfl⟩

theorem eraseParamConf_applyLogParam (log : List (ParamOrigin × ℚ)) (o : ParamOrigin)
    (q : Parameter) : eraseParamConf (applyLogParam log o q) = eraseParamConf q := by
  unfold applyLogParam
  cases lastWrite log o <;> rfl

/-- Replaying any write log onto a variant list changes nothing but
confidence fields. -/
theorem eraseConf_applyLog (vs : List PartVariant) (log : List (ParamOrigin × ℚ))
    (mk : ℕ → ℕ → ParamOrigin) :
    (vs.enum.map fun x =>
        ({ x.2 with parameters := x.2.parameters.enum.map fun y =>
            applyLogParam log (mk x.1 y.1) y.2 } : PartVariant)).map eraseVariantConf =
      vs.map eraseVariantConf := by
  rw [List.map_map]
  have h : (eraseVariantConf ∘ fun x : ℕ × PartVariant =>
      ({ x.2 with parameters := x.2.parameters.enum.map fun y =>
          applyLogParam log (mk x.1 y.1) y.2 } : PartVariant)) =
      eraseVariantConf ∘ Prod.snd := by
    funext x
    simp only [Function.comp, eraseVariantConf, List.map_map]
    congr 1
    have h2 : (eraseParamConf ∘ fun y : ℕ × Parameter =>
        applyLogParam log (mk x.1 y.1) y.2) = eraseParamConf ∘ Prod.snd := by
      funext y
      exact eraseParamConf_applyLogParam log (mk x.1 y.1) y.2
    rw [h2, ← List.map_map, List.enum_map_snd]
  rw [h, ← List.map_map, List.enum_map_snd]

/-- C5, amended. The merge is deterministic (it is a function of its
two inputs), but it is not free of side effects: it writes the
`confidence` fields of input `Parameter` objects involved in
cross-validation in place.  Apart from confidence fields, the inputs are
left completely unchanged: blanking all confidences, the post-call state
of each input equals the input itself. -/
theorem merge_mutates_only_confidences (p a : DatasheetExtraction) :
    eraseConf (patternAfterMerge p a) = eraseConf p ∧
    eraseConf (aiAfterMerge p a) = eraseConf a := by
  constructor
  · simp only [eraseConf, patternAfterMerge]
    congr 1
    exact eraseConf_applyLog p.variants (mergeLog p a) ParamOrigin.fromPattern
  · simp only [eraseConf, aiAfterMerge]
    congr 1
    exact eraseConf_applyLog a.variants (mergeLog p a) ParamOrigin.fromAI

/-- C5, counterexample. The merge is not a pure function: in the
concrete merge scenario, the call mutates the primary input in place —
parameter A's confidence inside `pattern_result` is `1.0` after the call
(boosted by `ai_integration.py` line 392), no longer the original `0.9`. -/
theorem merge_not_pure_counterexample :
    ((patternAfterMerge scenarioPrimary scenarioFallback).variants.map fun v =>
        v.parameters.map Parameter.confidence) = [[1]] ∧
    (scenarioPrimary.variants.map fun v =>
        v.parameters.map Parameter.confidence) = [[9/10]] ∧
    patternAfterMerge scenarioPrimary scenarioFallback ≠ scenarioPrimary := by
  refine ⟨?_, ?_, ?_⟩
  · norm_num +decide [patternAfterMerge, mergeLog, mergeVariantStepT, mergeParamsStepT,
      tagPatternEntry, tagAIEntry, paramsDictT, applyLogParam, lastWrite, dictInsert,
      dictGet, List.enum, List.enumFrom, List.find?, scenarioPrimary, scenarioFallback,
      scenarioVariantPrimary, scenarioVariantFallback, scenarioParamA, scenarioParamA2,
      scenarioParamB, CONFIDENCE_BOOST, min_def]
  · norm_num [scenarioPrimary, scenarioVariantPrimary, scenarioParamA]
  · intro h
    have h1 : ((patternAfterMerge scenarioPrimary scenarioFallback).variants.map fun v =>
        v.parameters.map Parameter.confidence) = [[1]] := by
      norm_num +decide [patternAfterMerge, mergeLog, mergeVariantStepT, mergeParamsStepT,
        tagPatternEntry, tagAIEntry, paramsDictT, applyLogParam, lastWrite, dictInsert,
        dictGet, List.enum, List.enumFrom, List.find?, scenarioPrimary, scenarioFallback,
        scenarioVariantPrimary, scenarioVariantFallback, scenarioParamA, scenarioParamA2,
        scenarioParamB, CONFIDENCE_BOOST, min_def]
    rw [h] at h1
    norm_num [scenarioPrimary, scenarioVariantPrimary, scenarioParamA] at h1

/-- C4, counterexample. In the merge scenario the claim says
parameter A is tagged `"merged"`.  The code keeps the primary parameter
object and boosts only its confidence (`ai_integration.py` line 392); no
code path ever rewrites `extraction_method`, so parameter A stays tagged
`"pattern"`, refuting the claim as stated. -/
theorem merge_scenario_tag_counterexample :
    ((mergeExtractionResults scenarioPrimary scenarioFallback).variants.map fun v =>
        v.parameters.map fun p => (p.name, p.extraction_method)) =
      [[("A", "pattern"), ("B", "ai")]] ∧ ("pattern" : String) ≠ "merged" := by
  constructor
  · norm_num +decide [mergeExtractionResults, mergedVariantsDict, mergeVariantStep, mergeParamsStep,
      mkVariantEntry, paramsDict, dictInsert, dictGet, dictValues, scenarioPrimary,
      scenarioFallback, scenarioVariantPrimary, scenarioVariantFallback, scenarioParamA,
      scenarioParamA2, scenarioParamB, CONFIDENCE_BOOST, min_def]
  · decide

/-- C4, amended. In the merge scenario the merged result has supplier
`"Acme"`, parameter A at confidence `min(1.0, 0.9+0.1) = 1.0` keeping its
original `"pattern"` tag (not retagged `"merged"`), and parameter B
present at confidence `0.95` with its fallback (`"ai"`) tag. -/
theorem merge_scenario_amended :
    mergeExtractionResults scenarioPrimary scenarioFallback =
      { supplier := "Acme",
        product_family := "Transceivers",
        variants :=
          [{ part_number := "PN-1",
             parameters := [{ name := "A", value := "1", confidence := 1,
                              extraction_method := "pattern" },
                            { name := "B", value := "3", confidence := 95/100,
                              extraction_method := "ai" }] }],
        metadata := some (.mergedMeta
          { supplier := "Unknown", product_family := "Transceivers",
            variants_count := 1, parameters_count := 1 }
          { supplier := "Acme", product_family := "Transceivers",
            variants_count := 1, parameters_count := 2 }) } := by
  norm_num +decide [mergeExtractionResults, mergedVariantsDict, mergeVariantStep, mergeParamsStep,
    mkVariantEntry, paramsDict, dictInsert, dictGet, dictValues, mergedSupplier,
    mergedProductFamily, sideMeta, paramsCount, scenarioPrimary, scenarioFallback,
    scenarioVariantPrimary, scenarioVariantFallback, scenarioParamA, scenarioParamA2,
    scenarioParamB, CONFIDENCE_BOOST, min_def]

end DatasheetAI
